import Mathlib

/-
  Shallow embedding of the protosh interpreter (src/main.c).

  Conventions of the embedding:
  * C strings are Lean `String`s; the history array together with
    `history_len` is a `List String` (index 0 = oldest entry).
  * The process-wide replay-context globals `parent_cmd`, `parent_cmds`,
    `temp_line` are a `ReplayCtx` of `Option` values (`none` = NULL).
  * Return codes of the builtins stay `Int` (1 = continue the loop,
    0 = terminate, per the doc comment of `protosh_execute`).
  * Functions that may call `exit()` return a `CResult`:
    `ok` = normal return, `exitSuccess` / `exitFailure` = process
    termination with the corresponding status.
  * Allocation is modelled by explicit boolean oracles: a `Bool`
    argument (or a `List Bool` consumed left to right for the
    reallocations inside a loop) says whether each allocation succeeds.
  * `exec_commands` / `parse_commands_with_pipes` are declared but not
    defined in src/main.c; the replay path is therefore parameterised by
    an arbitrary effect function `f : String → HistState → HistState`
    giving the executed line's effect on the history/context state.
  * `HISTORY_MAXITEMS` is a macro whose value is not in src/main.c; it
    appears as an explicit capacity parameter `cap`.
  * Machine integers follow the LP64 model (64-bit `long`, 32-bit
    `int`): `strtol` clamps to LONG_MIN/LONG_MAX on overflow (ERANGE),
    and the narrowing conversion `offset = (int) loffset` at line 318 is
    two's-complement truncation, both written out on `Int`.
-/

/-- LONG_MAX on LP64: 2^63 - 1. -/
def LONG_MAX : Int := 2 ^ 63 - 1

/-- LONG_MIN on LP64: -2^63. -/
def LONG_MIN : Int := -(2 ^ 63)

/-- The value `strtol` stores on range overflow: the mathematical value
clamped into `[LONG_MIN, LONG_MAX]` (with errno = ERANGE, not modelled
further). -/
def clampLong (v : Int) : Int :=
  if v > LONG_MAX then LONG_MAX
  else if v < LONG_MIN then LONG_MIN
  else v

/-- The narrowing conversion `offset = (int) loffset` (src/main.c line
318) on LP64: reduction of the 64-bit `long` value to a 32-bit `int` by
two's-complement wraparound. On values already in
`[-2^31, 2^31 - 1]` it is the identity. -/
def intOfLong (v : Int) : Int := (v + 2 ^ 31) % 2 ^ 32 - 2 ^ 31

/-- A parsed command: `argv` is the NULL-terminated argument vector
(`struct command`). The C dispatch site calls `protosh_history` through a
mismatched `int (*)(char **)` pointer; the embedding passes the parsed
words, which is what the code manifestly intends. -/
structure Command where
  argv : List String
deriving DecidableEq

/-- `cmd->argc`: the number of argument words. -/
def Command.argc (c : Command) : Nat := c.argv.length

/-- The process-wide replay bookkeeping globals of src/main.c lines 26-28:
`parent_cmd`, `parent_cmds`, `temp_line` (`none` models NULL). The
`struct commands` pointer is identified by an opaque `String` label. -/
structure ReplayCtx where
  parent_cmd : Option Command
  parent_cmds : Option String
  temp_line : Option String
deriving DecidableEq

/-- All three context globals NULL (their initial value, and the value
stored by the reset block at lines 344-346). -/
def noneCtx : ReplayCtx := ⟨none, none, none⟩

/-- The mutable state the history subsystem touches: the history array
plus the replay-context globals. -/
structure HistState where
  hist : List String
  ctx : ReplayCtx
deriving DecidableEq

/-- Outcome of a function that may terminate the whole process:
a value, `exit(EXIT_SUCCESS)`, or `exit(EXIT_FAILURE)`. -/
inductive CResult (α : Type) where
  | ok (a : α)
  | exitSuccess
  | exitFailure
deriving DecidableEq

/-- `isspace` in the C locale: the six standard whitespace characters. -/
def c_isspace (c : Char) : Bool :=
  c = ' ' || c = '\t' || c = '\n' || c = '\x0b' || c = '\x0c' || c = '\r'

/-- Value of a digit string read left to right. -/
def digitsToNat (ds : List Char) : Nat :=
  ds.foldl (fun a c => a * 10 + (c.toNat - 48)) 0

/-- C `strtol(s, &end, 10)`: skip leading whitespace, read an optional
sign and a run of decimal digits, clamping the value to
`[LONG_MIN, LONG_MAX]` on range overflow (ERANGE). `none` models
`end == s` (no digits in the subject sequence; `end` is set past the
digits otherwise, so clamping does not affect parse success). -/
def strtol10 (s : String) : Option Int :=
  let cs := s.toList.dropWhile c_isspace
  let signAndRest : Bool × List Char :=
    match cs with
    | '-' :: rest => (true, rest)
    | '+' :: rest => (false, rest)
    | _ => (false, cs)
  let ds := signAndRest.2.takeWhile Char.isDigit
  if ds = [] then none
  else if signAndRest.1 then some (clampLong (-(digitsToNat ds : Int)))
  else some (clampLong ((digitsToNat ds : Int)))

/-- The C array read `history[offset]` with an `int` offset, made total:
`none` on any index outside `0..length-1` (in C such a read is undefined
behaviour / a stale pointer). -/
def intGet? (l : List String) (i : Int) : Option String :=
  if i < 0 then none else l.get? i.toNat

/-- The eviction/append core of `add_to_history` (src/main.c lines
379-392): at capacity, free the oldest entry, `memmove` the rest down one
slot and append; otherwise just append at `history[history_len++]`. -/
def record (cap : Nat) (h : List String) (input : String) : List String :=
  if h.length = cap then h.drop 1 ++ [input] else h ++ [input]

/-- `add_to_history` (src/main.c lines 358-394). `hist = none` models
`history == NULL` (before the first call initialises the array via
`calloc`). `callocOk` / `strdupOk` are the allocation oracles. On either
allocation failure the C function prints an error and RETURNS 0 — it
does not call `exit` — which the `CResult.ok (0, _)` branches record. -/
def add_to_history (cap : Nat) (callocOk strdupOk : Bool)
    (hist : Option (List String)) (input : String) :
    CResult (Int × Option (List String)) :=
  match hist with
  | none =>
    if callocOk then
      if strdupOk then .ok (1, some (record cap [] input))
      else .ok (0, some [])
    else .ok (0, none)
  | some h =>
    if strdupOk then .ok (1, some (record cap h input))
    else .ok (0, some h)

/-- `clear_history` (src/main.c lines 277-285): free every entry and
reset the length to zero. -/
def clear_history (_h : List String) : List String := []

/-- Observable action of one `protosh_history` call. -/
inductive HistEffect where
  | listed (entries : List (Nat × String))
  | cleared
  | parseError
  | rangeError
  | oobRead (offset : Int)
  | replayed (text : String)
  | fellThrough
deriving DecidableEq

/-- `protosh_history` (src/main.c lines 288-351). `f` stands for the
externally-defined `exec_commands ∘ parse_commands_with_pipes` pipeline:
it receives the duplicated line text and the state at the moment of the
recursive call, and yields the state after the replayed line ran.
Return value is the C `int` result; `HistEffect` records the observable
action; the final `HistState` is the state after the call.

Path by path: `argc == 1` lists the entries (return 1); `argv[1] == "-c"`
clears (return 0); an unparseable argument is a reported parse error
(return 1); the parsed `long` is narrowed to an `int` by
`offset = (int) loffset` (line 318, `intOfLong`); `offset > history_len`
is a reported range error (return 1); otherwise the line
`strdup(history[offset])` is parsed and executed with the three context
globals set to this call's own context, after which all three are reset
to NULL and 0 is returned. An `offset` outside `0..history_len-1` that
passes the range check reaches the out-of-bounds array read, modelled by
the `oobRead` branch (UB in C). The `strdup` of the replay line is
modelled as succeeding. -/
def protosh_history (f : String → HistState → HistState) (cmds : String)
    (cmd : Command) (st : HistState) : Int × HistEffect × HistState :=
  if cmd.argc = 1 then
    (1, .listed st.hist.enum, st)
  else if cmd.argc > 1 then
    match cmd.argv.get? 1 with
    | none => (0, .fellThrough, st)
    | some a1 =>
      if a1 = "-c" then
        (0, .cleared, { st with hist := clear_history st.hist })
      else
        match strtol10 a1 with
        | none => (1, .parseError, st)
        | some loffset =>
          let offset := intOfLong loffset
          if offset > (st.hist.length : Int) then
            (1, .rangeError, st)
          else
            match intGet? st.hist offset with
            | none => (1, .oobRead offset, st)
            | some text =>
              let st1 : HistState :=
                { st with ctx := ⟨some cmd, some cmds, some text⟩ }
              let st2 := f text st1
              (0, .replayed text, { st2 with ctx := noneCtx })
  else
    (0, .fellThrough, st)

/-- Observable action of one `protosh_execute` call. -/
inductive ExecEffect where
  | noop
  | ranCd
  | ranHelp
  | ranExit
  | ranHistory (e : HistEffect)
  | launched (argv : List String)
deriving DecidableEq

/-- `protosh_execute` (src/main.c lines 139-155): a NULL first argument
slot returns 1 with no action; otherwise the name is compared against
`builtin_str = {cd, help, exit, history}` in order and the matching
handler's return value is passed through; a non-builtin name is launched
as an external program (`protosh_launch` always returns 1). -/
def protosh_execute (f : String → HistState → HistState) (cmds : String)
    (st : HistState) (args : List String) : Int × ExecEffect × HistState :=
  match args with
  | [] => (1, .noop, st)
  | a0 :: _ =>
    if a0 = "cd" then (1, .ranCd, st)
    else if a0 = "help" then (1, .ranHelp, st)
    else if a0 = "exit" then (0, .ranExit, st)
    else if a0 = "history" then
      let r := protosh_history f cmds ⟨args⟩ st
      (r.1, .ranHistory r.2.1, r.2.2)
    else (1, .launched args, st)

/-- Inner loop of `protosh_read_line` (src/main.c lines 174-197): the
input stream is a `List Char` whose end models EOF (`exit(EXIT_SUCCESS)`);
a newline returns the accumulated buffer; any other character is stored
and, when `position` reaches `bufsize`, the buffer is reallocated —
`reallocs` supplies one success flag per `realloc`, and a failed
`realloc` is `exit(EXIT_FAILURE)`. -/
def read_line_go : List Char → Nat → Nat → List Char → List Bool →
    CResult (List Char)
  | [], _, _, _, _ => .exitSuccess
  | c :: rest, pos, bufsize, acc, rs =>
    if c = '\n' then .ok acc
    else if bufsize ≤ pos + 1 then
      if rs.headD true then
        read_line_go rest (pos + 1) (bufsize + 1024) (acc ++ [c]) rs.tail
      else .exitFailure
    else read_line_go rest (pos + 1) bufsize (acc ++ [c]) rs

/-- `protosh_read_line` (src/main.c lines 162-198): the initial
1024-byte `malloc` failing is `exit(EXIT_FAILURE)`; otherwise the read
loop runs. -/
def protosh_read_line (stdin : List Char) (mallocOk : Bool)
    (reallocs : List Bool) : CResult (List Char) :=
  if mallocOk then read_line_go stdin 0 1024 [] reallocs
  else .exitFailure

/-- The delimiter set `protosh_TOK_DELIM = " \t\r\n\a"`. -/
def protosh_TOK_DELIM : List Char := [' ', '\t', '\r', '\n', '\x07']

/-- Scanner for the token stream `strtok` yields: maximal runs of
non-delimiter characters (`cur` holds the current run, reversed). -/
def tokenizeChars : List Char → List Char → List String
  | [], cur => if cur = [] then [] else [String.mk cur.reverse]
  | c :: rest, cur =>
    if protosh_TOK_DELIM.contains c then
      if cur = [] then tokenizeChars rest []
      else String.mk cur.reverse :: tokenizeChars rest []
    else tokenizeChars rest (c :: cur)

/-- The token stream `strtok` yields on a line: maximal runs of
non-delimiter characters (empty pieces between adjacent delimiters are
skipped). -/
def protosh_tokenize (line : String) : List String :=
  tokenizeChars line.toList []

/-- Inner loop of `protosh_split_line` (src/main.c lines 218-235): store
each token, growing the pointer array by 64 slots whenever `position`
reaches `bufsize`; a failed `realloc` is `exit(EXIT_FAILURE)`. -/
def split_go : List String → Nat → Nat → List String → List Bool →
    CResult (List String)
  | [], _, _, acc, _ => .ok acc
  | t :: rest, pos, bufsize, acc, rs =>
    if bufsize ≤ pos + 1 then
      if rs.headD true then
        split_go rest (pos + 1) (bufsize + 64) (acc ++ [t]) rs.tail
      else .exitFailure
    else split_go rest (pos + 1) bufsize (acc ++ [t]) rs

/-- `protosh_split_line` (src/main.c lines 207-238): the initial 64-slot
`malloc` failing is `exit(EXIT_FAILURE)`; otherwise the tokens are
collected into the (NULL-terminated) array. -/
def protosh_split_line (line : String) (mallocOk : Bool)
    (reallocs : List Bool) : CResult (List String) :=
  if mallocOk then split_go (protosh_tokenize line) 0 64 [] reallocs
  else .exitFailure

/-- One iteration of `protosh_loop` (src/main.c lines 249-257) after the
line has been read: `args = protosh_split_line(line)` (allocations
succeeding), then `status = protosh_execute(args)`. The loop body
contains no call to `add_to_history`. -/
def protosh_loop_iter (f : String → HistState → HistState) (cmds : String)
    (st : HistState) (line : String) : CResult (Int × ExecEffect × HistState) :=
  match protosh_split_line line true [] with
  | .ok args => .ok (protosh_execute f cmds st args)
  | .exitSuccess => .exitSuccess
  | .exitFailure => .exitFailure

/-- Recording keeps the length within the capacity. -/
theorem record_length_le (cap : Nat) (hcap : 0 < cap) (h : List String)
    (s : String) (hle : h.length ≤ cap) : (record cap h s).length ≤ cap := by
  unfold record
  split
  · rename_i hfull
    simp only [List.length_append, List.length_drop, List.length_singleton]
    omega
  · rename_i hne
    simp only [List.length_append, List.length_singleton]
    have : h.length ≠ cap := hne
    omega

/-- Folding `record` over a list of inputs from a valid state keeps the
suffix of the combined stream that fits in the capacity. -/
theorem record_foldl (cap : Nat) (hcap : 0 < cap) (ins : List String) :
    ∀ h : List String, h.length ≤ cap →
      List.foldl (record cap) h ins =
        (h ++ ins).drop (h.length + ins.length - cap) := by
  induction ins with
  | nil =>
    intro h hle
    simp [Nat.sub_eq_zero_of_le hle]
  | cons a t ih =>
    intro h hle
    rw [List.foldl_cons]
    by_cases hfull : h.length = cap
    · cases h with
      | nil =>
        exfalso
        simp at hfull
        omega
      | cons hd h2 =>
        have hr : record cap (hd :: h2) a = h2 ++ [a] := by
          simp [record, hfull]
        rw [hr]
        have hlen2 : (h2 ++ [a]).length ≤ cap := by
          simp only [List.length_cons] at hfull
          simp
          omega
        rw [ih _ hlen2]
        have e1 : (h2 ++ [a]).length + t.length - cap = t.length := by
          simp only [List.length_cons] at hfull
          simp
          omega
        have e2 : (hd :: h2).length + (a :: t).length - cap = t.length + 1 := by
          simp only [List.length_cons] at hfull
          simp
          omega
        rw [e1, e2, List.append_assoc, List.singleton_append,
          List.cons_append, List.drop_succ_cons]
    · have hlt : h.length < cap := lt_of_le_of_ne hle hfull
      have hr : record cap h a = h ++ [a] := by
        simp [record, hfull]
      rw [hr]
      have hlen2 : (h ++ [a]).length ≤ cap := by simp; omega
      rw [ih _ hlen2, List.append_assoc, List.singleton_append]
      congr 1
      simp
      omega

/-- Claim C3: for every positive capacity, the history store invariant
holds across every sequence of `record` operations: the length never
exceeds the capacity; a record at full capacity evicts exactly the
oldest entry, shifts the rest down one index and appends at the end; a
fold of records from the empty store keeps exactly the newest
capacity-many inputs in insertion order; in particular after
capacity + 1 inserts the first input is absent and the rest retain
relative order. -/
theorem history_record_fifo_invariant (cap : Nat) (hcap : 0 < cap) :
    (∀ (h : List String) (s : String),
        h.length ≤ cap → (record cap h s).length ≤ cap) ∧
    (∀ (h : List String) (s : String),
        h.length = cap → record cap h s = h.drop 1 ++ [s]) ∧
    (∀ ins : List String,
        List.foldl (record cap) [] ins = ins.drop (ins.length - cap)) ∧
    (∀ ins : List String, ins.length = cap + 1 →
        List.foldl (record cap) [] ins = ins.drop 1) := by
  refine ⟨fun h s hle => record_length_le cap hcap h s hle, ?_, ?_, ?_⟩
  · intro h s hfull
    simp [record, hfull]
  · intro ins
    have := record_foldl cap hcap ins [] (by simp)
    simpa using this
  · intro ins hlen
    have := record_foldl cap hcap ins [] (by simp)
    simp only [List.nil_append, List.length_nil, Nat.zero_add] at this
    rw [this, hlen]
    congr 1
    omega

/-- Witness for C3 at capacity 2: three inserts from empty evict the
first input. -/
theorem history_record_fifo_invariant_witness :
    0 < 2 ∧ List.foldl (record 2) [] ["a", "b", "c"] =
      List.drop 1 ["a", "b", "c"] :=
  ⟨by decide, (history_record_fifo_invariant 2 (by decide)).2.2.2
    ["a", "b", "c"] (by decide)⟩

/-- `strtol` finds no digits in the clear flag `-c`. -/
theorem strtol10_dash_c : strtol10 "-c" = none := by decide

/-- Unfolding of `protosh_history` for a command with at least two
argument words (the `argc > 1` branch of src/main.c lines 300-349). -/
theorem protosh_history_two_args (f : String → HistState → HistState)
    (cmds a0 a1 : String) (rest : List String) (st : HistState) :
    protosh_history f cmds ⟨a0 :: a1 :: rest⟩ st =
      ((if a1 = "-c" then
        (0, .cleared, { st with hist := clear_history st.hist })
       else
        match strtol10 a1 with
        | none => (1, .parseError, st)
        | some loffset =>
          if intOfLong loffset > (st.hist.length : Int) then
            (1, .rangeError, st)
          else
            match intGet? st.hist (intOfLong loffset) with
            | none => (1, .oobRead (intOfLong loffset), st)
            | some text =>
              (0, .replayed text,
                { f text { st with
                    ctx := ⟨some ⟨a0 :: a1 :: rest⟩, some cmds, some text⟩ } with
                  ctx := noneCtx })) : Int × HistEffect × HistState) := by
  unfold protosh_history
  simp [Command.argc]

/-- A successfully parsed offset cannot have come from the literal
argument `-c`. -/
theorem strtol10_some_ne_dash_c (a1 : String) (n : Int)
    (hp : strtol10 a1 = some n) : a1 ≠ "-c" := by
  intro e
  rw [e, strtol10_dash_c] at hp
  exact Option.noConfusion hp

/-- An in-bounds read pins the offset below the store length. -/
theorem intGet?_some_bounds (l : List String) (i : Int) (x : String)
    (hget : intGet? l i = some x) :
    0 ≤ i ∧ i < (l.length : Int) := by
  unfold intGet? at hget
  split at hget
  · exact Option.noConfusion hget
  · rename_i hneg
    have hlt : i.toNat < l.length := by
      by_contra hge
      rw [List.get?_eq_none.mpr (by omega)] at hget
      exact Option.noConfusion hget
    omega

/-- Counterexample for C6 as stated: an argument that parses to an
integer greater than the store length is not always rejected. On LP64,
`history 4294967297` parses to 4294967297 = 2^32 + 1, far above the
store length 2, but the narrowing `offset = (int) loffset` (line 318)
truncates it to offset 1, which passes the `offset > history_len` check
and REPLAYS entry 1 (`echo b`) instead of reporting the range error. -/
theorem history_truncated_offset_replays :
    strtol10 "4294967297" = some 4294967297 ∧
    ((4294967297 : Int) > ((2 : Nat) : Int)) ∧
    protosh_history (fun _ s => s) "top" ⟨["history", "4294967297"]⟩
        ⟨["echo a", "echo b"], noneCtx⟩ =
      (0, .replayed "echo b", ⟨["echo a", "echo b"], noneCtx⟩) ∧
    (HistEffect.replayed "echo b" ≠ HistEffect.rangeError) := by
  exact ⟨by decide, by decide, by decide, by decide⟩

/-- Claim C6 (amended): the range check runs on the int-narrowed offset
`(int) loffset` (line 318): when the narrowed offset is strictly greater
than the current store length, the engine reports a range error and
takes no action — return value 1 (continue), the state (store and
context globals) unchanged, no replay — and the comparison is strictly
greater-than: a narrowed offset equal to the current length is not
rejected by this check. For every argument whose parsed value fits in
an `int` — in particular every index a user can aim at a store bounded
by the int-typed `HISTORY_MAXITEMS` — the narrowing is the identity and
the original claim's behaviour follows. -/
theorem history_range_check_strict (f : String → HistState → HistState)
    (cmds a0 a1 : String) (rest : List String) (st : HistState) (n : Int)
    (hp : strtol10 a1 = some n) :
    (intOfLong n > (st.hist.length : Int) →
      protosh_history f cmds ⟨a0 :: a1 :: rest⟩ st = (1, .rangeError, st)) ∧
    (intOfLong n = (st.hist.length : Int) →
      (protosh_history f cmds ⟨a0 :: a1 :: rest⟩ st).2.1 ≠ .rangeError) := by
  have hc : a1 ≠ "-c" := strtol10_some_ne_dash_c a1 n hp
  rw [protosh_history_two_args]
  constructor
  · intro hgt
    simp [hc, hp, hgt]
  · intro heq
    have hng : ¬ intOfLong n > (st.hist.length : Int) := by omega
    have hget : intGet? st.hist (intOfLong n) = none := by
      unfold intGet?
      have h0 : ¬ intOfLong n < 0 := by omega
      simp only [h0, if_false]
      exact List.get?_eq_none.mpr (by omega)
    simp [hc, hp, hng, hget]

/-- Witness for C6 (amended): with one stored entry, `history 5` (whose
narrowed offset is still 5) hits the range error and changes nothing. -/
theorem history_range_check_strict_witness :
    strtol10 "5" = some 5 ∧ intOfLong 5 > ((1 : Nat) : Int) ∧
    protosh_history (fun _ s => s) "top" ⟨["history", "5"]⟩
        ⟨["echo a"], noneCtx⟩ =
      (1, .rangeError, ⟨["echo a"], noneCtx⟩) :=
  ⟨by decide, by decide,
    (history_range_check_strict (fun _ s => s) "top" "history" "5" []
      ⟨["echo a"], noneCtx⟩ 5 (by decide)).1 (by decide)⟩

/-- Claim C7: a `history` argument that is neither `-c` nor has a
parseable leading integer is a reported parse error with no action: the
return value is 1 (continue), no replay happens, and the store and
context globals are unchanged. -/
theorem history_parse_error_no_action (f : String → HistState → HistState)
    (cmds a0 a1 : String) (rest : List String) (st : HistState)
    (hc : a1 ≠ "-c") (hp : strtol10 a1 = none) :
    protosh_history f cmds ⟨a0 :: a1 :: rest⟩ st = (1, .parseError, st) := by
  rw [protosh_history_two_args]
  simp [hc, hp]

/-- Witness for C7: `history notanumber` with one stored entry. -/
theorem history_parse_error_no_action_witness :
    ("notanumber" ≠ "-c") ∧ strtol10 "notanumber" = none ∧
    protosh_history (fun _ s => s) "top" ⟨["history", "notanumber"]⟩
        ⟨["echo a"], noneCtx⟩ =
      (1, .parseError, ⟨["echo a"], noneCtx⟩) :=
  ⟨by decide, by decide,
    history_parse_error_no_action (fun _ s => s) "top" "history" "notanumber"
      [] ⟨["echo a"], noneCtx⟩ (by decide) (by decide)⟩

/-- Counterexample for C10 as stated: not every negatively parsed
argument reaches the out-of-bounds read at its own value. On LP64,
`history -4294967296` parses to the negative value -2^32, but the
narrowing `offset = (int) loffset` (line 318) truncates it to offset 0,
which is in range: the engine REPLAYS entry 0 (`echo a`) instead of
indexing the array at a negative offset. -/
theorem negative_truncated_offset_replays :
    strtol10 "-4294967296" = some (-4294967296) ∧
    ((-4294967296 : Int) < 0) ∧
    protosh_history (fun _ s => s) "top" ⟨["history", "-4294967296"]⟩
        ⟨["echo a"], noneCtx⟩ =
      (0, .replayed "echo a", ⟨["echo a"], noneCtx⟩) := by
  exact ⟨by decide, by decide, by decide⟩

/-- Claim C10 (amended): a `history` argument whose parsed value has a
negative int-narrowed offset `(int) loffset` (line 318) — such as
`history -5`, where the narrowing is the identity — passes the range
validation (which only compares against the upper bound `history_len`)
and reaches the indexing of the history array at that negative offset:
in the total embedding, where that read returns `Option`, the
out-of-range branch `oobRead` is reached at the public interface. -/
theorem negative_offset_reaches_oob (f : String → HistState → HistState)
    (cmds a0 a1 : String) (rest : List String) (st : HistState) (n : Int)
    (hp : strtol10 a1 = some n) (hneg : intOfLong n < 0) :
    protosh_history f cmds ⟨a0 :: a1 :: rest⟩ st =
      (1, .oobRead (intOfLong n), st) := by
  have hc : a1 ≠ "-c" := strtol10_some_ne_dash_c a1 n hp
  have hng : ¬ intOfLong n > (st.hist.length : Int) := by
    have : (0 : Int) ≤ (st.hist.length : Int) := Int.natCast_nonneg _
    omega
  have hget : intGet? st.hist (intOfLong n) = none := by
    unfold intGet?
    simp [hneg]
  rw [protosh_history_two_args]
  simp [hc, hp, hng, hget]

/-- Witness for C10 (amended): `history -5` (narrowed offset still -5)
with one stored entry reaches the out-of-bounds read at offset -5. -/
theorem negative_offset_reaches_oob_witness :
    strtol10 "-5" = some (-5) ∧ (intOfLong (-5) < 0) ∧
    protosh_history (fun _ s => s) "top" ⟨["history", "-5"]⟩
        ⟨["echo a"], noneCtx⟩ =
      (1, .oobRead (-5), ⟨["echo a"], noneCtx⟩) := by
  refine ⟨by decide, by decide, ?_⟩
  rw [negative_offset_reaches_oob (fun _ s => s) "top" "history" "-5" []
    ⟨["echo a"], noneCtx⟩ (-5) (by decide) (by decide)]
  decide

/-- Unfolding of the successful replay path: when the array read at the
int-narrowed offset succeeds, the engine executes exactly the text read
at call time, runs it on the state whose context globals hold THIS
call's own command, pipeline and duplicated line, and then resets all
three globals to NULL. -/
theorem protosh_history_replay_path (f : String → HistState → HistState)
    (cmds a0 a1 : String) (rest : List String) (st : HistState) (n : Int)
    (text : String) (hp : strtol10 a1 = some n)
    (hget : intGet? st.hist (intOfLong n) = some text) :
    protosh_history f cmds ⟨a0 :: a1 :: rest⟩ st =
      (0, .replayed text,
        { f text { st with
            ctx := ⟨some ⟨a0 :: a1 :: rest⟩, some cmds, some text⟩ } with
          ctx := noneCtx }) := by
  have hc : a1 ≠ "-c" := strtol10_some_ne_dash_c a1 n hp
  have hb := intGet?_some_bounds st.hist (intOfLong n) text hget
  have hng : ¬ intOfLong n > (st.hist.length : Int) := by omega
  rw [protosh_history_two_args]
  simp [hc, hp, hng, hget]

/-- Claim C5: a replay with a valid index `n` — one whose int narrowing
is the identity, which holds for every index of a store bounded by the
int-typed `HISTORY_MAXITEMS` — executes exactly the text stored at
index `n` at the moment of the call (the `strdup` copy made before
use): the executed text is the call-time array read, and it is
identical under any two behaviours of the replayed command — in
particular a clear or eviction of the store performed during the replay
cannot change the text being executed. -/
theorem replay_executes_snapshot_text
    (f g : String → HistState → HistState) (cmds a0 a1 : String)
    (rest : List String) (st : HistState) (n : Int) (text : String)
    (hp : strtol10 a1 = some n) (hr : intOfLong n = n)
    (hget : intGet? st.hist n = some text) :
    (protosh_history f cmds ⟨a0 :: a1 :: rest⟩ st).2.1 = .replayed text ∧
    (protosh_history f cmds ⟨a0 :: a1 :: rest⟩ st).2.1 =
      (protosh_history g cmds ⟨a0 :: a1 :: rest⟩ st).2.1 := by
  have hget2 : intGet? st.hist (intOfLong n) = some text := by
    rw [hr]
    exact hget
  rw [protosh_history_replay_path f cmds a0 a1 rest st n text hp hget2,
    protosh_history_replay_path g cmds a0 a1 rest st n text hp hget2]
  exact ⟨rfl, rfl⟩

/-- Witness for C5: `history 0` on the store `["echo a", "echo b"]`
executes `echo a`, also when the replayed command clears the store. -/
theorem replay_executes_snapshot_text_witness :
    strtol10 "0" = some 0 ∧ intOfLong 0 = 0 ∧
    intGet? ["echo a", "echo b"] 0 = some "echo a" ∧
    (protosh_history (fun _ s => { s with hist := [] }) "top"
        ⟨["history", "0"]⟩ ⟨["echo a", "echo b"], noneCtx⟩).2.1 =
      .replayed "echo a" :=
  ⟨by decide, by decide, by decide,
    (replay_executes_snapshot_text (fun _ s => { s with hist := [] })
      (fun _ s => s) "top" "history" "0" [] ⟨["echo a", "echo b"], noneCtx⟩
      0 "echo a" (by decide) (by decide) (by decide)).1⟩

/-- Counterexample for C4 as stated: a nested replay does NOT restore
the parent replay's context pointers. Concretely, the parent replay of
`history 1` has set the globals to its own context (parent_cmd =
`history 1`, parent_cmds = `outer`, temp_line = `history 0`) before
recursively executing the nested `history 0`; after the nested call
returns, the globals are all NULL, not the parent's values. -/
theorem nested_replay_ctx_not_restored :
    (protosh_history (fun _ s => s) "inner" ⟨["history", "0"]⟩
        ⟨["echo a"],
          ⟨some ⟨["history", "1"]⟩, some "outer", some "history 0"⟩⟩).2.2.ctx ≠
      ⟨some ⟨["history", "1"]⟩, some "outer", some "history 0"⟩ := by
  decide

/-- Claim C4 (amended): the replay path overwrites the process-wide
context pointers with the current call's own context for the duration of
the nested execution and resets all three pointers to NULL on return —
regardless of the values they held before the call. A nested replay
therefore does not corrupt the heap objects of the parent, but it leaves
the pointers NULL rather than restoring the parent's values: there is no
save/restore (push/pop) of the previous pointer values. -/
theorem replay_resets_ctx_to_null (f : String → HistState → HistState)
    (cmds a0 a1 : String) (rest : List String) (st : HistState) (n : Int)
    (text : String) (hp : strtol10 a1 = some n)
    (hget : intGet? st.hist (intOfLong n) = some text) :
    (protosh_history f cmds ⟨a0 :: a1 :: rest⟩ st =
      (0, .replayed text,
        { f text { st with
            ctx := ⟨some ⟨a0 :: a1 :: rest⟩, some cmds, some text⟩ } with
          ctx := noneCtx })) ∧
    (protosh_history f cmds ⟨a0 :: a1 :: rest⟩ st).2.2.ctx = noneCtx := by
  have h := protosh_history_replay_path f cmds a0 a1 rest st n text hp hget
  exact ⟨h, by rw [h]⟩

/-- Witness for C4 (amended), at the counterexample's nested call: the
nested `history 0` leaves all three context pointers NULL. -/
theorem replay_resets_ctx_to_null_witness :
    strtol10 "0" = some 0 ∧
    intGet? ["echo a"] (intOfLong 0) = some "echo a" ∧
    (protosh_history (fun _ s => s) "inner" ⟨["history", "0"]⟩
        ⟨["echo a"],
          ⟨some ⟨["history", "1"]⟩, some "outer", some "history 0"⟩⟩).2.2.ctx =
      noneCtx :=
  ⟨by decide, by decide,
    (replay_resets_ctx_to_null (fun _ s => s) "inner" "history" "0" []
      ⟨["echo a"],
        ⟨some ⟨["history", "1"]⟩, some "outer", some "history 0"⟩⟩
      0 "echo a" (by decide) (by decide)).2⟩

/-- Claim C1 (code bug): per the contract of `protosh_execute` (return 1
= continue the loop, 0 = terminate), the termination signal is NOT
returned only by `exit`: `history -c` and a successful `history <N>`
replay also return 0 to the interpreter loop, while plain `history`
returns 1. Evaluated at the failing input `history -c` (and, for
contrast, at `exit`, `history` and `history 5`). -/
theorem history_clear_returns_terminate_signal :
    (protosh_execute (fun _ s => s) "top" ⟨["ls"], noneCtx⟩
      ["history", "-c"]).1 = 0 ∧
    (protosh_execute (fun _ s => s) "top" ⟨["ls"], noneCtx⟩
      ["history", "0"]).1 = 0 ∧
    (protosh_execute (fun _ s => s) "top" ⟨["ls"], noneCtx⟩ ["exit"]).1 = 0 ∧
    (protosh_execute (fun _ s => s) "top" ⟨["ls"], noneCtx⟩ ["history"]).1 = 1 := by
  decide

/-- Claim C2 (code bug): one full interpreter-loop iteration on the
non-empty line `echo a` executes the line but leaves the history store
empty — `protosh_loop` contains no call to `add_to_history`, so the
store does not grow and the line is never recorded. -/
theorem loop_iteration_does_not_record :
    protosh_loop_iter (fun _ s => s) "top" ⟨[], noneCtx⟩ "echo a" =
      .ok (1, .launched ["echo", "a"], ⟨[], noneCtx⟩) := by
  decide

/-- Claim C9: a command whose argument list is empty (NULL first slot)
is a silent no-op: return 1 (continue), no effect, state unchanged. -/
theorem empty_command_is_noop (f : String → HistState → HistState)
    (cmds : String) (st : HistState) :
    protosh_execute f cmds st [] = (1, .noop, st) := rfl

/-- Counterexample for C8 as stated: an allocation failure inside the
history-record operation does NOT terminate the process. With the
initialising `calloc` failing, `add_to_history` returns the error value
0 and control continues. -/
theorem add_to_history_alloc_failure_returns :
    add_to_history 100 false true none "x" = .ok (0, none) ∧
    (CResult.ok ((0 : Int), (none : Option (List String))) ≠
      (CResult.exitFailure : CResult (Int × Option (List String)))) := by
  exact ⟨by decide, by decide⟩

/-- Claim C8 (amended): allocation failure in line reading or tokenizing
is fatal — the failed `malloc` or `realloc` makes the process exit
immediately with a failure status — but allocation failure inside the
history-record operation is not: `add_to_history` returns the error
value 0 (leaving the store as it was) instead of terminating. -/
theorem alloc_failure_fatal_except_history :
    (∀ (stdin : List Char) (rs : List Bool),
        protosh_read_line stdin false rs = .exitFailure) ∧
    (∀ (c : Char) (rest : List Char) (pos bufsize : Nat) (acc : List Char)
        (rs : List Bool), c ≠ '\n' → bufsize ≤ pos + 1 →
        read_line_go (c :: rest) pos bufsize acc (false :: rs) =
          .exitFailure) ∧
    (∀ (line : String) (rs : List Bool),
        protosh_split_line line false rs = .exitFailure) ∧
    (∀ (t : String) (rest : List String) (pos bufsize : Nat)
        (acc : List String) (rs : List Bool), bufsize ≤ pos + 1 →
        split_go (t :: rest) pos bufsize acc (false :: rs) = .exitFailure) ∧
    (∀ (cap : Nat) (s : String),
        add_to_history cap false true none s = .ok (0, none)) ∧
    (∀ (cap : Nat) (h : List String) (s : String),
        add_to_history cap true false (some h) s = .ok (0, some h)) := by
  refine ⟨?_, ?_, ?_, ?_, ?_, ?_⟩
  · intro stdin rs
    simp [protosh_read_line]
  · intro c rest pos bufsize acc rs hc hb
    simp [read_line_go, hc, hb]
  · intro line rs
    simp [protosh_split_line]
  · intro t rest pos bufsize acc rs hb
    simp [split_go, hb]
  · intro cap s
    simp [add_to_history]
  · intro cap h s
    simp [add_to_history]

/-- Witness for C8 (amended): a 1025th character with the `realloc`
failing kills the read, and a failing `strdup` in `add_to_history`
returns 0 with the store unchanged. -/
theorem alloc_failure_fatal_except_history_witness :
    ('a' ≠ '\n' ∧ 1024 ≤ 1023 + 1) ∧
    read_line_go ['a', 'b'] 1023 1024 [] [false] = .exitFailure ∧
    add_to_history 100 true false (some ["echo a"]) "x" =
      .ok (0, some ["echo a"]) :=
  ⟨⟨by decide, by decide⟩,
    alloc_failure_fatal_except_history.2.1 'a' ['b'] 1023 1024 [] []
      (by decide) (by decide),
    alloc_failure_fatal_except_history.2.2.2.2.2 100 ["echo a"] "x"⟩
